import Mathlib

set_option maxHeartbeats 1000000

/-!
Shallow embedding of the async-web-client HTTP request path:
`src/lib.rs` (the `Transport` abstraction) and
`src/http/request_native.rs` (`RequestSend`, `RequestWrite`).

External collaborators (the TCP socket, the wire codec cursors, the TLS
stack, the response-body reader) are modelled by an explicit event trace
(`Ev`) supplying the outcome of each polled asynchronous sub-operation:
one event is consumed per `poll` of a sub-operation, exactly mirroring
the suspension points of the source.  Machine state and header maps are
translated field-for-field from the Rust definitions.
-/

/-- Modelled from the spec: an underlying I/O fault, carried inside a
shared clonable handle in the source; its identity is all that matters
here, so it is a bare natural number. -/
abbrev IoFault := Nat

/-- The URI scheme as the source observes it: `http`, `https`, or any
other scheme (carried as its text). -/
inductive Scheme where
  | http
  | https
  | other (s : String)
deriving DecidableEq, Repr

/-- The parts of a `http::Uri` that `request_native.rs` reads: scheme,
host and explicit port, each possibly absent. -/
structure Uri where
  scheme : Option Scheme
  host : Option String
  port : Option Nat
deriving DecidableEq, Repr

/-- A header map: association list of (lower-cased name, value), the view
of `http::HeaderMap` the source uses (`get` / `insert`). -/
abbrev HeaderMap := List (String × String)

/-- `HeaderMap::get`: first value stored under `name`. -/
def headerGet (hs : HeaderMap) (name : String) : Option String :=
  (hs.find? (fun p => p.1 == name)).map (fun p => p.2)

/-- `HeaderMap::insert`: replace any values stored under `name` by the
single `value`. -/
def headerInsert (hs : HeaderMap) (name value : String) : HeaderMap :=
  hs.filter (fun p => p.1 != name) ++ [(name, value)]

/-- Modelled from the spec: the error taxonomy of the crate's
`http::error` module, which is not under `src/` (only its uses are):
`UnexpectedScheme(scheme)`, `MissingHost`, `ConnectError` and `IoError`,
the latter two wrapping a shared underlying fault. -/
inductive HttpError where
  | unexpectedScheme (s : Scheme)
  | missingHost
  | connectError (e : IoFault)
  | ioError (e : IoFault)
deriving DecidableEq, Repr

deriving instance DecidableEq for Except

/-- A connected TCP socket, identified by the peer it was connected to
(`async_net::TcpStream`; its byte-level behaviour lives in the event
trace). -/
structure TcpStream where
  host : String
  port : Nat
deriving DecidableEq, Repr

/-- A TLS client configuration; its contents are irrelevant to the
control flow, only its presence is. -/
abbrev ClientConfig := Unit

/-- `TransportError` from `src/lib.rs`. -/
inductive TransportError where
  | invalidDnsName
  | tcpConnect (e : IoFault)
  | tlsConnect (e : IoFault)
deriving DecidableEq, Repr

/-- `Transport` from `src/lib.rs`: plain TCP stream or TLS-wrapped
stream. -/
inductive Transport where
  | tcp (s : TcpStream)
  | tls (s : TcpStream)
deriving DecidableEq, Repr

/-- Outcomes of the network collaborators consulted by
`Transport::connect`: server-name parsing, the raw TCP connect, and the
TLS handshake. -/
structure NetEnv where
  dnsValid : Bool
  tcpResult : Except IoFault Unit
  tlsResult : Except IoFault Unit
deriving DecidableEq, Repr

/-- `Transport::connect` from `src/lib.rs` lines 29-50: parse the server
name, open a raw TCP connection, and perform a TLS handshake exactly when
a TLS configuration is supplied. -/
def Transport.connect (tls : Option ClientConfig) (host : String) (port : Nat)
    (env : NetEnv) : Except TransportError Transport :=
  if env.dnsValid then
    match env.tcpResult with
    | .error e => .error (.tcpConnect e)
    | .ok _ =>
      match tls with
      | none => .ok (.tcp ⟨host, port⟩)
      | some _ =>
        match env.tlsResult with
        | .error e => .error (.tlsConnect e)
        | .ok _ => .ok (.tls ⟨host, port⟩)
  else .error .invalidDnsName

/-- Modelled from the spec: the origin resolver `extract_origin(uri,
headers)` of the missing `http::common` module.  It returns
`(scheme?, host, port?)` and fails with `MissingHost` when no host is
derivable from the URI or the headers; when the URI itself names a host,
the URI's scheme and explicit port are returned with it. -/
def extract_origin (uri : Uri) (headers : HeaderMap) :
    Except HttpError (Option Scheme × String × Option Nat) :=
  match uri.host with
  | some h => .ok (uri.scheme, h, uri.port)
  | none =>
    match headerGet headers "host" with
    | some h => .ok (uri.scheme, h, none)
    | none => .error .missingHost

/-- The scheme policy shared by `RequestSend::poll` (Start arm, lines
72-77) and `RequestWrite::start` (lines 237-244): `http` is plain,
`https` and an absent scheme are encrypted, anything else is
`UnexpectedScheme`. -/
def schemeToHttps : Option Scheme → Except HttpError Bool
  | some .http => .ok false
  | some .https => .ok true
  | none => .ok true
  | some (.other s) => .error (.unexpectedScheme (.other s))

/-- `async_http_codec::RequestHead`: method, URI, version and headers of
the outgoing request head. -/
structure RequestHead where
  method : String
  uri : Uri
  version : String
  headers : HeaderMap
deriving DecidableEq, Repr

/-- Lines 103-109: insert a `Host` header when none is present, with the
value `host:port` when the origin carries an explicit port and plain
`host` otherwise. -/
def withHostHeader (headers : HeaderMap) (host : String) (port : Option Nat) :
    HeaderMap :=
  match headerGet headers "host" with
  | none =>
    headerInsert headers "host"
      (match port with
       | some p => host ++ ":" ++ toString p
       | none => host)
  | some _ => headers

/-- Lines 110-113: insert a `Content-Length` header when none is
present, with the body's byte length as value. -/
def withContentLength (headers : HeaderMap) (body : List Nat) : HeaderMap :=
  match headerGet headers "content-length" with
  | none => headerInsert headers "content-length" (toString body.length)
  | some _ => headers

/-- The head construction of the `PendingConnect` success arm
(`request_native.rs` lines 102-113): HTTP/1.1 head from the caller's
method/URI/headers, with the `Host` then `Content-Length` insertions
applied in the source's order. -/
def buildHead (method : String) (uri : Uri) (headers : HeaderMap)
    (host : String) (port : Option Nat) (body : List Nat) : RequestHead :=
  { method := method, uri := uri, version := "HTTP/1.1",
    headers := withContentLength (withHostHeader headers host port) body }

/-- `async_http_codec::BodyEncodeState`: only its construction argument
is visible to this crate — `new(Some(len))` for a length-bounded body,
`new(None)` for chunked framing. -/
structure BodyEncodeState where
  declaredLength : Option Nat
deriving DecidableEq, Repr

/-- A decoded response head (collaborator output). -/
structure ResponseHead where
  status : Nat
  headers : HeaderMap
deriving DecidableEq, Repr

/-- One outcome of polling an asynchronous sub-operation, supplied by
the environment: connect completion, head-write / flush completion, a
partial body write of `n` bytes, an I/O error, a decoded response head
(together with the response-body reader's verdict on it), or
would-block. -/
inductive Ev where
  | pending
  | connectOk
  | connectErr (e : IoFault)
  | ioOk
  | ioErr (e : IoFault)
  | wrote (n : Nat)
  | gotHead (h : ResponseHead) (bodyReader : Except HttpError Unit)
deriving DecidableEq, Repr

/-- Result of one `RequestSend::poll` call: would-block, a response, an
error, the panic of the `Finished` arm, or two model artifacts —
`starved` (the event trace ended while the loop needed another outcome)
and `stuck` (the trace supplied an outcome of the wrong shape). -/
inductive PollRes where
  | pending
  | ok (resp : ResponseHead)
  | err (e : HttpError)
  | panicked
  | starved
  | stuck
deriving DecidableEq, Repr

/-- `Poll::Ready` with a value or an error. -/
def PollRes.isReady : PollRes → Bool
  | .ok _ => true
  | .err _ => true
  | _ => false

/-- Whether a connection is opened plain (`TcpStream::connect`) or
through the TLS stack (`TlsConnector`). -/
inductive ConnKind where
  | tcp
  | tls
deriving DecidableEq, Repr

/-- Observable I/O actions of one `RequestSend::poll` call: starting a
connect, and each poll of a head-write / body-write / flush /
head-decode operation against the transport. -/
inductive IoAction where
  | connectAttempt (kind : ConnKind) (addr : String × Nat)
  | writeHead
  | writeBody
  | flush
  | readHead
deriving DecidableEq, Repr

/-- Actions that put (or may put) request bytes on the wire. -/
def IoAction.isWrite : IoAction → Bool
  | .writeHead => true
  | .writeBody => true
  | .flush => true
  | _ => false

/-- The `RequestSend` state enum from `request_native.rs` lines 23-56.
The head-write cursor (`BufferWriteState`) is represented by the head it
encodes; the response-decode cursor (`BufferDecodeState`) carries no
crate-visible data. -/
inductive RequestSend where
  | start (body : List Nat) (method : String) (uri : Uri) (headers : HeaderMap)
  | pendingConnect (body : List Nat) (method : String) (uri : Uri)
      (headers : HeaderMap) (addr : String × Nat)
  | sendingHead (body : List Nat) (write_state : RequestHead) (transport : TcpStream)
  | sendingBody (body : List Nat) (remaining : List Nat)
      (write_state : BodyEncodeState) (transport : TcpStream)
  | flushing (transport : TcpStream)
  | receivingHead (transport : TcpStream)
  | finished
deriving DecidableEq, Repr

/-- Prefix an action onto the log of a poll outcome. -/
def consLog (a : IoAction) :
    RequestSend × PollRes × List IoAction → RequestSend × PollRes × List IoAction
  | (s, r, log) => (s, r, a :: log)

/-- The body of the `loop` in `RequestSend::poll` (lines 67-217), for
the states reached after `Start`: each iteration polls one sub-operation
(consuming one event) and either returns — leaving the state that
`replace` / the arm stored — or advances and loops. -/
def pollLoop : RequestSend → List Ev → RequestSend × PollRes × List IoAction
  | .finished, _ => (.finished, .panicked, [])
  | s, [] => (s, .starved, [])
  | .start b m u hd, _ :: _ => (.start b m u hd, .stuck, [])
  | .pendingConnect b m u hd addr, ev :: evs =>
    match ev with
    | .pending => (.pendingConnect b m u hd addr, .pending, [])
    | .connectErr e => (.finished, .err (.connectError e), [])
    | .connectOk =>
      match extract_origin u hd with
      | .error e => (.finished, .err e, [])
      | .ok (_, host, port) =>
        pollLoop (.sendingHead b (buildHead m u hd host port b) ⟨addr.1, addr.2⟩) evs
    | _ => (.pendingConnect b m u hd addr, .stuck, [])
  | .sendingHead b ws t, ev :: evs =>
    match ev with
    | .pending => (.sendingHead b ws t, .pending, [.writeHead])
    | .ioErr e => (.finished, .err (.ioError e), [.writeHead])
    | .ioOk => consLog .writeHead (pollLoop (.sendingBody b b ⟨some b.length⟩ t) evs)
    | _ => (.sendingHead b ws t, .stuck, [])
  | .sendingBody b rem ws t, ev :: evs =>
    match ev with
    | .pending => (.sendingBody b rem ws t, .pending, [.writeBody])
    | .ioErr e => (.finished, .err (.ioError e), [.writeBody])
    | .wrote n =>
      if (rem.drop n).length = 0 then
        consLog .writeBody (pollLoop (.flushing t) evs)
      else
        consLog .writeBody (pollLoop (.sendingBody b (rem.drop n) ws t) evs)
    | _ => (.sendingBody b rem ws t, .stuck, [])
  | .flushing t, ev :: evs =>
    match ev with
    | .pending => (.flushing t, .pending, [.flush])
    | .ioErr e => (.finished, .err (.ioError e), [.flush])
    | .ioOk => consLog .flush (pollLoop (.receivingHead t) evs)
    | _ => (.flushing t, .stuck, [])
  | .receivingHead t, ev :: _ =>
    match ev with
    | .pending => (.receivingHead t, .pending, [.readHead])
    | .ioErr e => (.finished, .err (.ioError e), [.readHead])
    | .gotHead h rr =>
      match rr with
      | .error e => (.finished, .err e, [.readHead])
      | .ok _ => (.finished, .ok h, [.readHead])
    | _ => (.receivingHead t, .stuck, [])

/-- The address resolution of the `Start` arm (lines 71-84): resolve the
origin, apply the scheme policy, and default the port to 443 (encrypted)
or 80 (plain) when the origin has none. -/
def startResolve (u : Uri) (hd : HeaderMap) : Except HttpError (String × Nat) :=
  match extract_origin u hd with
  | .error e => .error e
  | .ok (scheme, host, port) =>
    match schemeToHttps scheme with
    | .error e => .error e
    | .ok https => .ok (host, port.getD (if https then 443 else 80))

/-- `RequestSend::poll` (lines 66-218).  The `Start` arm (lines 70-92)
resolves the connect address via `startResolve` and starts a connect —
in the source a bare `TcpStream::connect(addr)`, hence `ConnKind.tcp` —
before continuing the loop in `PendingConnect`. -/
def RequestSend.poll (s : RequestSend) (evs : List Ev) :
    RequestSend × PollRes × List IoAction :=
  match s with
  | .start b m u hd =>
    match startResolve u hd with
    | .error e => (.finished, .err e, [])
    | .ok addr =>
      consLog (.connectAttempt .tcp addr)
        (pollLoop (.pendingConnect b m u hd addr) evs)
  | s => pollLoop s evs

/-- `RequestSend::is_terminated` (lines 219-224). -/
def RequestSend.is_terminated : RequestSend → Bool
  | .finished => true
  | _ => false

/-- The `RequestWrite` record from `request_native.rs` lines 227-233.
The pending connect future is represented by the address it will connect
to; the pending head-write cursor by the head it encodes. -/
structure RequestWrite where
  error : Option HttpError
  pending_connect : Option (String × Nat)
  pending_head : Option RequestHead
  transport : Option TcpStream
  body_encode_state : Option BodyEncodeState
deriving DecidableEq, Repr

/-- `RequestWrite::error` (lines 278-286): a record holding only the
terminal error. -/
def RequestWrite.mkError (e : HttpError) : RequestWrite :=
  { error := some e, pending_connect := none, pending_head := none,
    transport := none, body_encode_state := none }

/-- `RequestWrite::start` (lines 236-265): apply the scheme policy, read
the host and port straight from the URI (port defaulting to 443
encrypted / 80 plain), build the head with `Transfer-Encoding: chunked`
inserted, start the connect, and create the body encoder in chunked mode
(`BodyEncodeState::new(None)`). -/
def RequestWrite.start (method : String) (uri : Uri) (headers : HeaderMap) :
    RequestWrite :=
  match schemeToHttps uri.scheme with
  | .error e => RequestWrite.mkError e
  | .ok https =>
    match uri.host with
    | none => RequestWrite.mkError .missingHost
    | some host =>
      let port := uri.port.getD (if https then 443 else 80)
      { error := none,
        pending_connect := some (host, port),
        pending_head := some
          { method := method, uri := uri, version := "HTTP/1.1",
            headers := headerInsert headers "transfer-encoding" "chunked" },
        transport := none,
        body_encode_state := some ⟨none⟩ }

/-- Result of the shared preamble `poll_before_body`. -/
inductive PBRes where
  | ok
  | err (e : HttpError)
  | pend
  | starved
  | stuck
  | panicked
deriving DecidableEq, Repr

/-- The head-write half of `poll_before_body` (lines 301-311): unwrap
the stored transport (panicking when absent, as `unwrap` does), then
drive any pending head write, recording a terminal error on failure. -/
def RequestWrite.headPhase (w : RequestWrite) (evs : List Ev) :
    RequestWrite × List Ev × PBRes :=
  match w.transport with
  | none => (w, evs, .panicked)
  | some _ =>
    match w.pending_head with
    | none => (w, evs, .ok)
    | some _ =>
      match evs with
      | [] => (w, [], .starved)
      | ev :: rest =>
        match ev with
        | .pending => (w, rest, .pend)
        | .ioOk => ({ w with pending_head := none }, rest, .ok)
        | .ioErr e => (RequestWrite.mkError (.ioError e), rest, .err (.ioError e))
        | _ => (w, rest, .stuck)

/-- `RequestWrite::poll_before_body` (lines 287-313): await a pending
connect (storing the transport on success, recording a terminal
`ConnectError` on failure), then the head phase. -/
def RequestWrite.poll_before_body (w : RequestWrite) (evs : List Ev) :
    RequestWrite × List Ev × PBRes :=
  match w.pending_connect with
  | none => RequestWrite.headPhase w evs
  | some addr =>
    match evs with
    | [] => (w, [], .starved)
    | ev :: rest =>
      match ev with
      | .pending => (w, rest, .pend)
      | .connectErr e =>
        (RequestWrite.mkError (.connectError e), rest, .err (.connectError e))
      | .connectOk =>
        RequestWrite.headPhase
          { w with transport := some ⟨addr.1, addr.2⟩, pending_connect := none } rest
      | _ => (w, rest, .stuck)

/-- Result of one `poll_write` / `poll_flush` / `poll_close` call on a
`RequestWrite`: would-block, `n` bytes accepted, unit success, an error,
the `already closed` I/O error, the panic of an `unwrap`, or the model
artifacts `starved` / `stuck` as in `PollRes`. -/
inductive WRes where
  | pend
  | okW (n : Nat)
  | okU
  | err (e : HttpError)
  | alreadyClosed
  | starved
  | stuck
  | panicked
deriving DecidableEq, Repr

/-- The shared body of the three `AsyncWrite` methods after the
preamble (lines 327-345 / 355-373 / 383-405): take the transport
(failing with the `already closed` I/O error when absent) and the
body-encode cursor (`unwrap`), poll the delegated operation on the
chunk-framing adapter, then checkpoint: the cursor is always restored,
and the transport is restored exactly when no error was recorded —
on failure the record is replaced by the terminal error
(`*self = Self::error(..)`), discarding the transport. -/
def RequestWrite.bodyPoll (isWriteOp : Bool) :
    RequestWrite × List Ev × PBRes → RequestWrite × WRes
  | (w1, _, .err e) => (w1, .err e)
  | (w1, _, .pend) => (w1, .pend)
  | (w1, _, .starved) => (w1, .starved)
  | (w1, _, .stuck) => (w1, .stuck)
  | (w1, _, .panicked) => (w1, .panicked)
  | (w1, rest, .ok) =>
    match w1.transport with
    | none => (w1, .alreadyClosed)
    | some t =>
      match w1.body_encode_state with
      | none => ({ w1 with transport := none }, .panicked)
      | some s =>
        match rest with
        | [] => ({ w1 with transport := some t, body_encode_state := some s }, .starved)
        | ev :: _ =>
          match isWriteOp, ev with
          | _, .pending =>
            ({ w1 with transport := some t, body_encode_state := some s }, .pend)
          | true, .wrote n =>
            ({ w1 with transport := some t, body_encode_state := some s }, .okW n)
          | false, .ioOk =>
            ({ w1 with transport := some t, body_encode_state := some s }, .okU)
          | _, .ioErr e =>
            ({ RequestWrite.mkError (.ioError e) with body_encode_state := some s },
             .err (.ioError e))
          | _, _ =>
            ({ w1 with transport := some t, body_encode_state := some s }, .stuck)

/-- `RequestWrite::poll_write` (lines 320-346): return any stored
terminal error first; run the preamble; then the take / chunked-write /
checkpoint sequence of `bodyPoll`. -/
def RequestWrite.poll_write (w : RequestWrite) (evs : List Ev) (buf : List Nat) :
    RequestWrite × WRes :=
  match w.error with
  | some e => (w, .err e)
  | none => RequestWrite.bodyPoll true (RequestWrite.poll_before_body w evs)

/-- `RequestWrite::poll_flush` (lines 348-374): as `poll_write`, with the
adapter's flush as the delegated operation. -/
def RequestWrite.poll_flush (w : RequestWrite) (evs : List Ev) :
    RequestWrite × WRes :=
  match w.error with
  | some e => (w, .err e)
  | none => RequestWrite.bodyPoll false (RequestWrite.poll_before_body w evs)

/-- `RequestWrite::poll_close` (lines 376-406): as `poll_flush`, with the
adapter's close as the delegated operation.  In the source's success arm
`drop(self.transport.take())` is a no-op — the transport was already
taken into the adapter at the top of the call — and the unconditional
checkpoint that follows restores both the cursor and (`error` being
`None`) the transport onto the record. -/
def RequestWrite.poll_close (w : RequestWrite) (evs : List Ev) :
    RequestWrite × WRes :=
  match w.error with
  | some e => (w, .err e)
  | none => RequestWrite.bodyPoll false (RequestWrite.poll_before_body w evs)

theorem consLog_fst (a : IoAction) (x : RequestSend × PollRes × List IoAction) :
    (consLog a x).1 = x.1 := by
  obtain ⟨s, r, log⟩ := x
  rfl

theorem consLog_res (a : IoAction) (x : RequestSend × PollRes × List IoAction) :
    (consLog a x).2.1 = x.2.1 := by
  obtain ⟨s, r, log⟩ := x
  rfl

theorem consLog_log (a : IoAction) (x : RequestSend × PollRes × List IoAction) :
    (consLog a x).2.2 = a :: x.2.2 := by
  obtain ⟨s, r, log⟩ := x
  rfl

theorem poll_start_err (b : List Nat) (m : String) (u : Uri) (hd : HeaderMap)
    (evs : List Ev) (e : HttpError) (hres : startResolve u hd = .error e) :
    RequestSend.poll (.start b m u hd) evs = (.finished, .err e, []) := by
  simp only [RequestSend.poll]
  rw [hres]

theorem poll_start_ok (b : List Nat) (m : String) (u : Uri) (hd : HeaderMap)
    (evs : List Ev) (addr : String × Nat) (hres : startResolve u hd = .ok addr) :
    RequestSend.poll (.start b m u hd) evs
      = consLog (.connectAttempt .tcp addr)
          (pollLoop (.pendingConnect b m u hd addr) evs) := by
  simp only [RequestSend.poll]
  rw [hres]

theorem find_filter_ne_self (l : List (String × String)) (k : String) :
    (l.filter (fun p => p.1 != k)).find? (fun p => p.1 == k) = none := by
  induction l with
  | nil => rfl
  | cons a t ih =>
    by_cases h : a.1 = k
    · simp [List.filter_cons, h, ih]
    · simp [List.filter_cons, h, List.find?, ih]

theorem find_filter_other (l : List (String × String)) (k k2 : String) (h : k2 ≠ k) :
    (l.filter (fun p => p.1 != k)).find? (fun p => p.1 == k2)
      = l.find? (fun p => p.1 == k2) := by
  induction l with
  | nil => rfl
  | cons a t ih =>
    by_cases ha : a.1 = k
    · have hak2 : (a.1 == k2) = false := by
        simp only [beq_eq_false_iff_ne, ha]
        exact fun hk => h hk.symm
      have hfilter : (a :: t).filter (fun p => p.1 != k)
          = t.filter (fun p => p.1 != k) := by
        simp [List.filter_cons, ha]
      rw [hfilter, ih]
      simp [List.find?_cons, hak2]
    · have hfilter : (a :: t).filter (fun p => p.1 != k)
          = a :: t.filter (fun p => p.1 != k) := by
        simp [List.filter_cons, ha]
      by_cases ha2 : a.1 = k2
      · have hp : (a.1 == k2) = true := by simp [ha2]
        rw [hfilter]
        simp [List.find?_cons, hp]
      · have hp : (a.1 == k2) = false := by simp [ha2]
        rw [hfilter]
        simp [List.find?_cons, hp, ih]

theorem headerGet_insert_self (hs : HeaderMap) (k v : String) :
    headerGet (headerInsert hs k v) k = some v := by
  unfold headerGet headerInsert
  rw [List.find?_append, find_filter_ne_self]
  simp [List.find?]

theorem headerGet_insert_other (hs : HeaderMap) (k v k2 : String) (h : k2 ≠ k) :
    headerGet (headerInsert hs k v) k2 = headerGet hs k2 := by
  unfold headerGet headerInsert
  rw [List.find?_append, find_filter_other hs k k2 h]
  cases hf : hs.find? (fun p => p.1 == k2) with
  | none =>
    have : (k == k2) = false := by
      simp only [beq_eq_false_iff_ne]
      exact fun hk => h hk.symm
    simp [List.find?, this]
  | some p => simp

theorem withHostHeader_get_other (hs : HeaderMap) (host : String)
    (port : Option Nat) (k : String) (h : k ≠ "host") :
    headerGet (withHostHeader hs host port) k = headerGet hs k := by
  unfold withHostHeader
  cases hh : headerGet hs "host" with
  | none => exact headerGet_insert_other hs "host" _ k h
  | some v => rfl

theorem withContentLength_get_other (hs : HeaderMap) (b : List Nat)
    (k : String) (h : k ≠ "content-length") :
    headerGet (withContentLength hs b) k = headerGet hs k := by
  unfold withContentLength
  cases hh : headerGet hs "content-length" with
  | none => exact headerGet_insert_other hs "content-length" _ k h
  | some v => rfl

theorem buildHead_contentLength_absent (m : String) (u : Uri) (hd : HeaderMap)
    (host : String) (port : Option Nat) (b : List Nat)
    (h : headerGet hd "content-length" = none) :
    headerGet (buildHead m u hd host port b).headers "content-length"
      = some (toString b.length) := by
  show headerGet (withContentLength (withHostHeader hd host port) b)
      "content-length" = some (toString b.length)
  have h1 : headerGet (withHostHeader hd host port) "content-length" = none := by
    rw [withHostHeader_get_other hd host port "content-length" (by decide)]
    exact h
  unfold withContentLength
  rw [h1]
  exact headerGet_insert_self _ _ _

theorem buildHead_contentLength_present (m : String) (u : Uri) (hd : HeaderMap)
    (host : String) (port : Option Nat) (b : List Nat) (v : String)
    (h : headerGet hd "content-length" = some v) :
    headerGet (buildHead m u hd host port b).headers "content-length" = some v := by
  show headerGet (withContentLength (withHostHeader hd host port) b)
      "content-length" = some v
  have h1 : headerGet (withHostHeader hd host port) "content-length" = some v := by
    rw [withHostHeader_get_other hd host port "content-length" (by decide)]
    exact h
  unfold withContentLength
  rw [h1]
  exact h1

theorem buildHead_host_absent (m : String) (u : Uri) (hd : HeaderMap)
    (host : String) (port : Option Nat) (b : List Nat)
    (h : headerGet hd "host" = none) :
    headerGet (buildHead m u hd host port b).headers "host"
      = some (match port with
              | some p => host ++ ":" ++ toString p
              | none => host) := by
  show headerGet (withContentLength (withHostHeader hd host port) b) "host"
      = some (match port with
              | some p => host ++ ":" ++ toString p
              | none => host)
  rw [withContentLength_get_other _ b "host" (by decide)]
  unfold withHostHeader
  rw [h]
  exact headerGet_insert_self _ _ _

theorem buildHead_host_present (m : String) (u : Uri) (hd : HeaderMap)
    (host : String) (port : Option Nat) (b : List Nat) (v : String)
    (h : headerGet hd "host" = some v) :
    headerGet (buildHead m u hd host port b).headers "host" = some v := by
  show headerGet (withContentLength (withHostHeader hd host port) b) "host"
      = some v
  rw [withContentLength_get_other _ b "host" (by decide)]
  unfold withHostHeader
  rw [h]
  exact h

theorem pollLoop_ready_finished :
    ∀ (evs : List Ev) (s : RequestSend),
      ((pollLoop s evs).2.1).isReady = true → (pollLoop s evs).1 = .finished := by
  intro evs
  induction evs with
  | nil =>
    intro s h
    cases s <;> simp [pollLoop, PollRes.isReady] at h ⊢
  | cons ev evs ih =>
    intro s h
    cases s with
    | finished => rfl
    | start b m u hd =>
      simp [pollLoop, PollRes.isReady] at h
    | pendingConnect b m u hd addr =>
      cases ev with
      | pending => simp [pollLoop, PollRes.isReady] at h
      | connectErr e => simp [pollLoop]
      | connectOk =>
        simp only [pollLoop] at h ⊢
        cases hex : extract_origin u hd with
        | error e => simp [hex]
        | ok o =>
          obtain ⟨sch, host, port⟩ := o
          rw [hex] at h
          exact ih _ h
      | ioOk => simp [pollLoop, PollRes.isReady] at h
      | ioErr e => simp [pollLoop, PollRes.isReady] at h
      | wrote n => simp [pollLoop, PollRes.isReady] at h
      | gotHead hh rr => simp [pollLoop, PollRes.isReady] at h
    | sendingHead b ws t =>
      cases ev with
      | pending => simp [pollLoop, PollRes.isReady] at h
      | ioErr e => simp [pollLoop]
      | ioOk =>
        simp only [pollLoop, consLog_res] at h
        simp only [pollLoop, consLog_fst]
        exact ih _ h
      | connectOk => simp [pollLoop, PollRes.isReady] at h
      | connectErr e => simp [pollLoop, PollRes.isReady] at h
      | wrote n => simp [pollLoop, PollRes.isReady] at h
      | gotHead hh rr => simp [pollLoop, PollRes.isReady] at h
    | sendingBody b rem ws t =>
      cases ev with
      | pending => simp [pollLoop, PollRes.isReady] at h
      | ioErr e => simp [pollLoop]
      | wrote n =>
        by_cases hrem : (rem.drop n).length = 0
        · simp only [pollLoop, hrem, if_true, consLog_res] at h
          simp only [pollLoop, hrem, if_true, consLog_fst]
          exact ih _ h
        · simp only [pollLoop, hrem, if_false, consLog_res] at h
          simp only [pollLoop, hrem, if_false, consLog_fst]
          exact ih _ h
      | connectOk => simp [pollLoop, PollRes.isReady] at h
      | connectErr e => simp [pollLoop, PollRes.isReady] at h
      | ioOk => simp [pollLoop, PollRes.isReady] at h
      | gotHead hh rr => simp [pollLoop, PollRes.isReady] at h
    | flushing t =>
      cases ev with
      | pending => simp [pollLoop, PollRes.isReady] at h
      | ioErr e => simp [pollLoop]
      | ioOk =>
        simp only [pollLoop, consLog_res] at h
        simp only [pollLoop, consLog_fst]
        exact ih _ h
      | connectOk => simp [pollLoop, PollRes.isReady] at h
      | connectErr e => simp [pollLoop, PollRes.isReady] at h
      | wrote n => simp [pollLoop, PollRes.isReady] at h
      | gotHead hh rr => simp [pollLoop, PollRes.isReady] at h
    | receivingHead t =>
      cases ev with
      | pending => simp [pollLoop, PollRes.isReady] at h
      | ioErr e => simp [pollLoop]
      | gotHead hh rr => cases rr <;> simp [pollLoop]
      | connectOk => simp [pollLoop, PollRes.isReady] at h
      | connectErr e => simp [pollLoop, PollRes.isReady] at h
      | ioOk => simp [pollLoop, PollRes.isReady] at h
      | wrote n => simp [pollLoop, PollRes.isReady] at h

/-- C10: whenever `RequestSend::poll` returns `Ready` — a response or any
`HttpError` — the machine is left in the `Finished` state, `is_terminated`
returns `true` afterwards, and any further poll of a finished machine hits
the `panic!("polled finished future")` arm, after an error return just as
after success. -/
theorem c10_poll_ready_leaves_finished (s : RequestSend) (evs : List Ev)
    (h : ((RequestSend.poll s evs).2.1).isReady = true) :
    (RequestSend.poll s evs).1 = RequestSend.finished
      ∧ ((RequestSend.poll s evs).1).is_terminated = true
      ∧ ∀ evs2, (RequestSend.poll .finished evs2).2.1 = PollRes.panicked := by
  have hfin : (RequestSend.poll s evs).1 = RequestSend.finished := by
    cases s with
    | start b m u hd =>
      cases hres : startResolve u hd with
      | error e => rw [poll_start_err b m u hd evs e hres]
      | ok addr =>
        rw [poll_start_ok b m u hd evs addr hres] at h ⊢
        rw [consLog_res] at h
        rw [consLog_fst]
        exact pollLoop_ready_finished _ _ h
    | pendingConnect b m u hd addr => exact pollLoop_ready_finished _ _ h
    | sendingHead b ws t => exact pollLoop_ready_finished _ _ h
    | sendingBody b rem ws t => exact pollLoop_ready_finished _ _ h
    | flushing t => exact pollLoop_ready_finished _ _ h
    | receivingHead t => exact pollLoop_ready_finished _ _ h
    | finished => cases evs <;> rfl
  refine ⟨hfin, ?_, ?_⟩
  · rw [hfin]
    rfl
  · intro evs2
    cases evs2 <;> rfl

theorem c10_witness :
    ((RequestSend.poll
        (.start [] "GET" ⟨some (.other "ftp"), some "example.com", none⟩ [])
        []).2.1).isReady = true
    ∧ ((RequestSend.poll
          (.start [] "GET" ⟨some (.other "ftp"), some "example.com", none⟩ [])
          []).1 = RequestSend.finished
       ∧ ((RequestSend.poll
            (.start [] "GET" ⟨some (.other "ftp"), some "example.com", none⟩ [])
            []).1).is_terminated = true
       ∧ ∀ evs2, (RequestSend.poll .finished evs2).2.1 = PollRes.panicked) :=
  ⟨by rfl,
   c10_poll_ready_leaves_finished
     (.start [] "GET" ⟨some (.other "ftp"), some "example.com", none⟩ []) []
     (by rfl)⟩

/-- C1 (evaluation at the failing input): for an https request — and for
one with no scheme at all — the `Start` phase begins a PLAIN TCP connect
(the source calls `TcpStream::connect` directly, and every later state
holds a bare `TcpStream`); the scheme's only effect is the default port.
By contrast `Transport::connect` in `lib.rs`, which `RequestSend` never
invokes, does produce an encrypted transport when given a TLS
configuration. -/
theorem c1_https_start_connects_plain_tcp :
    (RequestSend.poll
        (.start [] "GET" ⟨some .https, some "example.com", none⟩ []) []).2.2
      = [IoAction.connectAttempt .tcp ("example.com", 443)]
  ∧ (RequestSend.poll
        (.start [] "GET" ⟨none, some "example.com", none⟩ []) []).2.2
      = [IoAction.connectAttempt .tcp ("example.com", 443)]
  ∧ Transport.connect (some ()) "example.com" 443 ⟨true, .ok (), .ok ()⟩
      = .ok (.tls ⟨"example.com", 443⟩)
  ∧ ConnKind.tcp ≠ ConnKind.tls :=
  ⟨rfl, rfl, rfl, by decide⟩

/-- C2 counterexample: the poll that observes the connect failure does
return `ConnectError` and leaves the machine `Finished`, but the next
poll of the same instance panics ("polled finished future") — it does
NOT return the same `ConnectError` again. -/
theorem c2_counterexample_second_poll_panics :
    (RequestSend.poll
        (.pendingConnect [] "GET" ⟨some .http, some "example.com", none⟩ []
          ("example.com", 80)) [.connectErr 7]).2.1
      = PollRes.err (.connectError 7)
  ∧ (RequestSend.poll
        (.pendingConnect [] "GET" ⟨some .http, some "example.com", none⟩ []
          ("example.com", 80)) [.connectErr 7]).1
      = RequestSend.finished
  ∧ (RequestSend.poll RequestSend.finished [.connectErr 7]).2.1 = PollRes.panicked
  ∧ (RequestSend.poll RequestSend.finished [.connectErr 7]).2.1
      ≠ PollRes.err (.connectError 7) :=
  ⟨rfl, rfl, rfl, by decide⟩

/-- C2 (amended): the first poll that observes the connect failure
returns `ConnectError` wrapping the fault with an empty action log (no
bytes were ever sent — earlier polls emit only the connect attempt and
would-block, never a write action); the machine is left `Finished`, and
every subsequent poll panics instead of repeating the error. -/
theorem c2_connect_error_amended (b : List Nat) (m : String) (u : Uri)
    (hd : HeaderMap) (addr : String × Nat) (e : IoFault) :
    RequestSend.poll (.pendingConnect b m u hd addr) [.connectErr e]
      = (.finished, .err (.connectError e), [])
  ∧ RequestSend.poll (.pendingConnect b m u hd addr) [.pending]
      = (.pendingConnect b m u hd addr, .pending, [])
  ∧ ((RequestSend.poll (.start b m u hd) [.pending]).2.2.all
      (fun a => !a.isWrite)) = true
  ∧ ∀ evs2, RequestSend.poll .finished evs2 = (.finished, .panicked, []) := by
  refine ⟨rfl, rfl, ?_, ?_⟩
  · cases hres : startResolve u hd with
    | error er =>
      rw [poll_start_err b m u hd [.pending] er hres]
      rfl
    | ok addr =>
      rw [poll_start_ok b m u hd [.pending] addr hres]
      rfl
  · intro evs2
    cases evs2 <;> rfl

/-- C6: with no explicit port the fixed-body exchange connects to port 80
for `http`, 443 for `https`, and 443 when the scheme is absent; an
explicit URI port is used as given. -/
theorem c6_port_resolution (b : List Nat) (m : String) (h : String)
    (hd : HeaderMap) (p : Nat) :
    RequestSend.poll (.start b m ⟨some .http, some h, none⟩ hd) []
      = (.pendingConnect b m ⟨some .http, some h, none⟩ hd (h, 80), .starved,
         [.connectAttempt .tcp (h, 80)])
  ∧ RequestSend.poll (.start b m ⟨some .https, some h, none⟩ hd) []
      = (.pendingConnect b m ⟨some .https, some h, none⟩ hd (h, 443), .starved,
         [.connectAttempt .tcp (h, 443)])
  ∧ RequestSend.poll (.start b m ⟨none, some h, none⟩ hd) []
      = (.pendingConnect b m ⟨none, some h, none⟩ hd (h, 443), .starved,
         [.connectAttempt .tcp (h, 443)])
  ∧ RequestSend.poll (.start b m ⟨some .http, some h, some p⟩ hd) []
      = (.pendingConnect b m ⟨some .http, some h, some p⟩ hd (h, p), .starved,
         [.connectAttempt .tcp (h, p)])
  ∧ RequestSend.poll (.start b m ⟨some .https, some h, some p⟩ hd) []
      = (.pendingConnect b m ⟨some .https, some h, some p⟩ hd (h, p), .starved,
         [.connectAttempt .tcp (h, p)]) :=
  ⟨rfl, rfl, rfl, rfl, rfl⟩

/-- C3: when the resolved scheme is neither `http` nor `https`, the
fixed-body exchange fails on its very first poll with `UnexpectedScheme`
carrying that scheme and an empty action log (no connect attempt), and
`RequestWrite::start` records the same error with no pending connect,
with every subsequent `poll_write` / `poll_flush` / `poll_close`
returning it. -/
theorem c3_unexpected_scheme (b : List Nat) (m : String) (u : Uri)
    (hd : HeaderMap) (sch : String) (host : String) (port : Option Nat)
    (hex : extract_origin u hd = .ok (some (.other sch), host, port)) :
    (∀ evs, RequestSend.poll (.start b m u hd) evs
        = (.finished, .err (.unexpectedScheme (.other sch)), []))
  ∧ (∀ m2 hd2, RequestWrite.start m2 u hd2
        = RequestWrite.mkError (.unexpectedScheme (.other sch)))
  ∧ (∀ m2 hd2 evs buf,
        RequestWrite.poll_write (RequestWrite.start m2 u hd2) evs buf
          = (RequestWrite.start m2 u hd2, .err (.unexpectedScheme (.other sch)))
      ∧ RequestWrite.poll_flush (RequestWrite.start m2 u hd2) evs
          = (RequestWrite.start m2 u hd2, .err (.unexpectedScheme (.other sch)))
      ∧ RequestWrite.poll_close (RequestWrite.start m2 u hd2) evs
          = (RequestWrite.start m2 u hd2, .err (.unexpectedScheme (.other sch)))) := by
  have huscheme : u.scheme = some (.other sch) := by
    unfold extract_origin at hex
    cases hu : u.host with
    | some hh =>
      rw [hu] at hex
      injection hex with hx
      exact congrArg Prod.fst hx
    | none =>
      rw [hu] at hex
      cases hg : headerGet hd "host" with
      | some hh =>
        rw [hg] at hex
        injection hex with hx
        exact congrArg Prod.fst hx
      | none =>
        rw [hg] at hex
        exact absurd hex (by simp)
  have hres : startResolve u hd = .error (.unexpectedScheme (.other sch)) := by
    unfold startResolve
    rw [hex]
    simp [schemeToHttps]
  have hstart : ∀ m2 hd2, RequestWrite.start m2 u hd2
      = RequestWrite.mkError (.unexpectedScheme (.other sch)) := by
    intro m2 hd2
    unfold RequestWrite.start
    rw [huscheme]
    rfl
  refine ⟨?_, hstart, ?_⟩
  · intro evs
    exact poll_start_err b m u hd evs _ hres
  · intro m2 hd2 evs buf
    rw [hstart m2 hd2]
    refine ⟨rfl, rfl, rfl⟩

theorem c3_witness :
    RequestSend.poll
        (.start [] "GET" ⟨some (.other "ftp"), some "example.com", none⟩ []) []
      = (.finished, .err (.unexpectedScheme (.other "ftp")), []) :=
  (c3_unexpected_scheme [] "GET" ⟨some (.other "ftp"), some "example.com", none⟩
      [] "ftp" "example.com" none rfl).1 []

/-- C7: the head built when the connect completes — the one stored in
`SendingHead` — carries a `Content-Length` that is synthesized only when
the caller's headers lack one, the synthesized value is exactly the
in-memory body's byte length, and a caller-supplied value is left
unchanged. -/
theorem c7_content_length (b : List Nat) (m : String) (u : Uri)
    (hd : HeaderMap) (sch : Option Scheme) (host : String) (port : Option Nat)
    (addr : String × Nat)
    (hex : extract_origin u hd = .ok (sch, host, port)) :
    (RequestSend.poll (.pendingConnect b m u hd addr) [.connectOk]).1
      = .sendingHead b (buildHead m u hd host port b) ⟨addr.1, addr.2⟩
  ∧ (headerGet hd "content-length" = none →
      headerGet (buildHead m u hd host port b).headers "content-length"
        = some (toString b.length))
  ∧ (∀ v, headerGet hd "content-length" = some v →
      headerGet (buildHead m u hd host port b).headers "content-length" = some v) := by
  refine ⟨?_, fun hno => buildHead_contentLength_absent m u hd host port b hno,
          fun v hv => buildHead_contentLength_present m u hd host port b v hv⟩
  show (pollLoop (.pendingConnect b m u hd addr) [.connectOk]).1 = _
  simp only [pollLoop]
  rw [hex]

theorem c7_witness :
    headerGet (buildHead "GET" ⟨some .http, some "example.com", none⟩ []
        "example.com" none [1, 2, 3]).headers "content-length" = some "3" :=
  (c7_content_length [1, 2, 3] "GET" ⟨some .http, some "example.com", none⟩ []
      (some .http) "example.com" none ("example.com", 80) rfl).2.1 rfl

/-- C8: the head built in the fixed-body path carries a `Host` header
that is synthesized only when the caller's headers lack one, as
`host:port` when the original URI carries an explicit port and bare
`host` otherwise; a caller-supplied `Host` is left unchanged.  (With a
URI that names its host, the modelled origin resolver returns exactly
the URI's explicit port.) -/
theorem c8_host_header (b : List Nat) (m : String) (u : Uri) (hd : HeaderMap)
    (h : String) (hh : u.host = some h) :
    extract_origin u hd = .ok (u.scheme, h, u.port)
  ∧ (headerGet hd "host" = none → ∀ p, u.port = some p →
      headerGet (buildHead m u hd h u.port b).headers "host"
        = some (h ++ ":" ++ toString p))
  ∧ (headerGet hd "host" = none → u.port = none →
      headerGet (buildHead m u hd h u.port b).headers "host" = some h)
  ∧ (∀ v, headerGet hd "host" = some v →
      headerGet (buildHead m u hd h u.port b).headers "host" = some v) := by
  refine ⟨?_, ?_, ?_, fun v hv => buildHead_host_present m u hd h u.port b v hv⟩
  · unfold extract_origin
    rw [hh]
  · intro hno p hp
    rw [hp]
    exact buildHead_host_absent m u hd h (some p) b hno
  · intro hno hp
    rw [hp]
    exact buildHead_host_absent m u hd h none b hno

theorem c8_witness :
    headerGet (buildHead "GET" ⟨some .http, some "example.com", some 8080⟩ []
        "example.com" (some 8080) []).headers "host" = some "example.com:8080" :=
  (c8_host_header [] "GET" ⟨some .http, some "example.com", some 8080⟩ []
      "example.com" rfl).2.1 rfl 8080 rfl

/-- C9: a `RequestWrite` started on a request with a valid scheme and a
host always carries `Transfer-Encoding: chunked` in its pending head
(however many bytes are written later — the head is fixed at start),
never synthesizes `Content-Length` (the head's content-length entry is
exactly the caller's), and creates the body encoder in chunked mode
(`BodyEncodeState::new(None)`). -/
theorem c9_chunked_streaming (m : String) (u : Uri) (hd : HeaderMap)
    (host : String)
    (hsch : u.scheme = some .http ∨ u.scheme = some .https ∨ u.scheme = none)
    (hh : u.host = some host) :
    (∃ head, (RequestWrite.start m u hd).pending_head = some head
       ∧ head.headers = headerInsert hd "transfer-encoding" "chunked"
       ∧ headerGet head.headers "transfer-encoding" = some "chunked"
       ∧ headerGet head.headers "content-length" = headerGet hd "content-length")
  ∧ (RequestWrite.start m u hd).body_encode_state = some ⟨none⟩
  ∧ (RequestWrite.start m u hd).error = none := by
  have hget : headerGet (headerInsert hd "transfer-encoding" "chunked")
      "transfer-encoding" = some "chunked" :=
    headerGet_insert_self hd "transfer-encoding" "chunked"
  have hcl : headerGet (headerInsert hd "transfer-encoding" "chunked")
      "content-length" = headerGet hd "content-length" :=
    headerGet_insert_other hd "transfer-encoding" "chunked" "content-length"
      (by decide)
  rcases hsch with h1 | h1 | h1 <;>
    · unfold RequestWrite.start
      rw [h1, hh]
      exact ⟨⟨_, rfl, rfl, hget, hcl⟩, rfl, rfl⟩

theorem c9_witness :
    (RequestWrite.start "POST" ⟨some .https, some "example.com", none⟩
        []).body_encode_state = some ⟨none⟩ :=
  (c9_chunked_streaming "POST" ⟨some .https, some "example.com", none⟩ []
      "example.com" (Or.inr (Or.inl rfl)) rfl).2.1

theorem headPhase_err_shape (w : RequestWrite) (evs : List Ev)
    (w1 : RequestWrite) (rest : List Ev) (e : HttpError)
    (hres : RequestWrite.headPhase w evs = (w1, rest, .err e)) :
    w1 = RequestWrite.mkError e := by
  unfold RequestWrite.headPhase at hres
  repeat' split at hres
  all_goals simp_all
  all_goals
    obtain ⟨h1, h2, h3⟩ := hres
    rw [← h1, h3]

theorem poll_before_body_err_shape (w : RequestWrite) (evs : List Ev)
    (w1 : RequestWrite) (rest : List Ev) (e : HttpError)
    (hres : RequestWrite.poll_before_body w evs = (w1, rest, .err e)) :
    w1 = RequestWrite.mkError e := by
  unfold RequestWrite.poll_before_body at hres
  split at hres
  · exact headPhase_err_shape _ _ _ _ _ hres
  · split at hres
    · simp_all
    · split at hres
      · simp_all
      · simp only [Prod.mk.injEq] at hres
        obtain ⟨h1, h2, h3⟩ := hres
        injection h3 with h3e
        rw [← h1, h3e]
      · exact headPhase_err_shape _ _ _ _ _ hres
      · simp_all

theorem bodyPoll_err_fields (b : Bool) (x : RequestWrite × List Ev × PBRes)
    (w1 : RequestWrite) (e : HttpError)
    (hshape : ∀ w2 rest2 e2, x = (w2, rest2, .err e2) → w2 = RequestWrite.mkError e2)
    (hres : RequestWrite.bodyPoll b x = (w1, .err e)) :
    w1.error = some e ∧ w1.transport = none ∧ w1.pending_connect = none
      ∧ w1.pending_head = none := by
  obtain ⟨w2, rest2, pb⟩ := x
  cases pb with
  | err e2 =>
    simp only [RequestWrite.bodyPoll, Prod.mk.injEq] at hres
    obtain ⟨h1, h2⟩ := hres
    injection h2 with h2e
    have hs := hshape w2 rest2 e2 rfl
    rw [← h1, hs, h2e]
    exact ⟨rfl, rfl, rfl, rfl⟩
  | pend => simp [RequestWrite.bodyPoll] at hres
  | starved => simp [RequestWrite.bodyPoll] at hres
  | stuck => simp [RequestWrite.bodyPoll] at hres
  | panicked => simp [RequestWrite.bodyPoll] at hres
  | ok =>
    simp only [RequestWrite.bodyPoll] at hres
    repeat' split at hres
    all_goals simp_all
    all_goals
      obtain ⟨h1, h2⟩ := hres
      rw [← h1, h2]
      exact ⟨rfl, rfl, rfl, rfl⟩

theorem poll_write_of_none (w : RequestWrite) (evs : List Ev) (buf : List Nat)
    (hnone : w.error = none) :
    RequestWrite.poll_write w evs buf
      = RequestWrite.bodyPoll true (RequestWrite.poll_before_body w evs) := by
  unfold RequestWrite.poll_write
  rw [hnone]

theorem poll_flush_of_none (w : RequestWrite) (evs : List Ev)
    (hnone : w.error = none) :
    RequestWrite.poll_flush w evs
      = RequestWrite.bodyPoll false (RequestWrite.poll_before_body w evs) := by
  unfold RequestWrite.poll_flush
  rw [hnone]

theorem poll_close_of_none (w : RequestWrite) (evs : List Ev)
    (hnone : w.error = none) :
    RequestWrite.poll_close w evs
      = RequestWrite.bodyPoll false (RequestWrite.poll_before_body w evs) := by
  unfold RequestWrite.poll_close
  rw [hnone]

/-- C4: once a `RequestWrite` holds a terminal error, every subsequent
`poll_write` / `poll_flush` / `poll_close` returns exactly that stored
error with the record untouched, for every environment trace alike — so
no I/O is performed; and whenever one of these operations returns an
error on a record with no prior error, the resulting record stores that
error and the transport (and both pending operations) have been
discarded. -/
theorem c4_sticky_error :
    (∀ (w : RequestWrite) (e : HttpError) (evs : List Ev) (buf : List Nat),
       w.error = some e →
         RequestWrite.poll_write w evs buf = (w, .err e)
       ∧ RequestWrite.poll_flush w evs = (w, .err e)
       ∧ RequestWrite.poll_close w evs = (w, .err e))
  ∧ (∀ (w : RequestWrite) (evs : List Ev) (buf : List Nat) (w1 : RequestWrite)
       (e : HttpError),
       w.error = none →
       (RequestWrite.poll_write w evs buf = (w1, .err e)
         ∨ RequestWrite.poll_flush w evs = (w1, .err e)
         ∨ RequestWrite.poll_close w evs = (w1, .err e)) →
       w1.error = some e ∧ w1.transport = none ∧ w1.pending_connect = none
         ∧ w1.pending_head = none) := by
  constructor
  · intro w e evs buf he
    refine ⟨?_, ?_, ?_⟩
    · unfold RequestWrite.poll_write
      rw [he]
    · unfold RequestWrite.poll_flush
      rw [he]
    · unfold RequestWrite.poll_close
      rw [he]
  · intro w evs buf w1 e hnone hcase
    have hshape : ∀ w2 rest2 e2,
        RequestWrite.poll_before_body w evs = (w2, rest2, .err e2) →
        w2 = RequestWrite.mkError e2 := fun w2 rest2 e2 hq =>
      poll_before_body_err_shape w evs w2 rest2 e2 hq
    rcases hcase with hres | hres | hres
    · rw [poll_write_of_none w evs buf hnone] at hres
      exact bodyPoll_err_fields true _ w1 e hshape hres
    · rw [poll_flush_of_none w evs hnone] at hres
      exact bodyPoll_err_fields false _ w1 e hshape hres
    · rw [poll_close_of_none w evs hnone] at hres
      exact bodyPoll_err_fields false _ w1 e hshape hres

theorem c4_witness :
    RequestWrite.poll_write (RequestWrite.mkError (.ioError 3)) [] []
      = (RequestWrite.mkError (.ioError 3), .err (.ioError 3)) :=
  (c4_sticky_error.1 (RequestWrite.mkError (.ioError 3)) (.ioError 3) [] [] rfl).1

/-- C5 counterexample: after a successful `poll_close` the transport is
NOT dropped from the record — it is restored.  The source's
`drop(self.transport.take())` in the success arm acts on an
already-empty slot (the transport was taken into the adapter at the top
of the call), and the unconditional checkpoint restore that follows puts
the transport back, which `response` then relies on
(`self.transport.take().unwrap()`). -/
theorem c5_counterexample_close_restores_transport :
    (RequestWrite.poll_close
        ⟨none, none, none, some ⟨"example.com", 80⟩, some ⟨none⟩⟩ [.ioOk]).2 = .okU
  ∧ (RequestWrite.poll_close
        ⟨none, none, none, some ⟨"example.com", 80⟩, some ⟨none⟩⟩ [.ioOk]).1.transport
      = some ⟨"example.com", 80⟩
  ∧ (RequestWrite.poll_close
        ⟨none, none, none, some ⟨"example.com", 80⟩, some ⟨none⟩⟩ [.ioOk]).1.transport
      ≠ none :=
  ⟨rfl, rfl, fun hc => Option.noConfusion hc⟩

/-- C5 (amended): after a successful `poll_write`, `poll_flush`, AND
`poll_close` alike, both the transport and the chunk-encode cursor are
restored onto the record, all other fields unchanged (the post-call
record equals the pre-call record).  The transport is not dropped on
close: the explicit drop is a no-op on the already-taken slot, and the
restored transport is what `response` subsequently consumes. -/
theorem c5_success_restores_transport (t : TcpStream) (s : BodyEncodeState)
    (n : Nat) (buf : List Nat) :
    RequestWrite.poll_write ⟨none, none, none, some t, some s⟩ [.wrote n] buf
      = (⟨none, none, none, some t, some s⟩, .okW n)
  ∧ RequestWrite.poll_flush ⟨none, none, none, some t, some s⟩ [.ioOk]
      = (⟨none, none, none, some t, some s⟩, .okU)
  ∧ RequestWrite.poll_close ⟨none, none, none, some t, some s⟩ [.ioOk]
      = (⟨none, none, none, some t, some s⟩, .okU) :=
  ⟨rfl, rfl, rfl⟩
